import Mathlib

/-!
Verification of the stocky heuristic data-normalization and analytics core.

This file is a shallow embedding of the code in
src/client/app/utils/stockAnalysis.ts, src/client/app/components/DataTable/DataTable.tsx
and src/client/app/components/DataTable/Pagination.tsx, together with theorems
settling the behavioural claims about that code.

Modelling conventions:
- A JavaScript cell value is a JsVal; JS numbers are modelled as rationals,
  with the separate constructor JsVal.nan playing the role of NaN (which has
  number type in JS but is not a finite value).  Fallible numeric results are
  Option rationals, none standing for NaN.
- JsVal.null models both null and undefined.  On every code path embedded here
  the two behave identically: both are falsy, both fail the explicit
  cellValue checks in the table filter, and both are never stringified except
  behind a falsiness guard.
- A Row is an association list preserving JS object key insertion order
  (Object.keys order); keys are unique in rows produced by the app.
- Array.prototype.sort (stable per ES2019) is modelled as a stable insertion
  sort in which an element a precedes b whenever comparator a b is at most 0.
-/

/-- A JavaScript cell value: text, finite number, NaN, boolean, or null/undefined. -/
inductive JsVal where
  | str (s : String)
  | num (q : ℚ)
  | nan
  | bool (b : Bool)
  | null
deriving DecidableEq

/-- A row of the dataset: column name to value, in JS key insertion order. -/
abbrev Row := List (String × JsVal)

/-- Object.keys of a row, in insertion order. -/
def rowKeys (r : Row) : List String := r.map Prod.fst

/-- Property access row[k]: some value when the key is present, none for undefined. -/
def valueAtOpt (r : Row) (k : String) : Option JsVal :=
  (r.find? (fun p => p.1 == k)).map Prod.snd

/-- Property access row[k] as a value; an absent key yields the null/undefined value. -/
def valueAt (r : Row) (k : String) : JsVal :=
  (valueAtOpt r k).getD .null

/-- JS truthiness of a value: false for the empty string, 0, NaN, false and null/undefined. -/
def jsTruthy : JsVal → Bool
  | .str s => !(s == "")
  | .num q => !(q == 0)
  | .nan => false
  | .bool b => b
  | .null => false

/-- ASCII lower-casing of one character (the fragment of toLowerCase the headers use). -/
def asciiLowerChar (c : Char) : Char :=
  if 'A' ≤ c ∧ c ≤ 'Z' then Char.ofNat (c.toNat + 32) else c

/-- ASCII lower-casing of a string, modelling String.prototype.toLowerCase on ASCII data. -/
def asciiLower (s : String) : String :=
  ⟨s.data.map asciiLowerChar⟩

/-- Boolean test that the first list is an initial segment of the second. -/
def listPre : List Char → List Char → Bool
  | [], _ => true
  | _ :: _, [] => false
  | a :: as, b :: bs => a == b && listPre as bs

/-- Boolean test that the first list occurs contiguously inside the second. -/
def listSub (n : List Char) : List Char → Bool
  | [] => n.isEmpty
  | c :: t => listPre n (c :: t) || listSub n t

/-- String.prototype.includes: needle occurs as a substring of hay. -/
def strIncludes (hay needle : String) : Bool :=
  listSub needle.data hay.data

/-- JS code-unit lexicographic string order (the order of the < operator on strings). -/
def listLt : List Char → List Char → Bool
  | [], [] => false
  | [], _ :: _ => true
  | _ :: _, [] => false
  | a :: as, b :: bs => if a < b then true else if a == b then listLt as bs else false

/-- JS string comparison x < y. -/
def strLtBool (x y : String) : Bool := listLt x.data y.data

/-- Numeric value of a list of decimal digit characters. -/
def digitsVal (ds : List Char) : ℕ :=
  ds.foldl (fun n c => 10 * n + (c.toNat - 48)) 0

/-- Zero-padded k-digit decimal rendering of a natural number. -/
def natPadLeft (k : ℕ) (n : ℕ) : String :=
  let s := toString n
  ⟨List.replicate (k - s.length) '0' ++ s.data⟩

/-- Decimal rendering of a rational, modelling JS number-to-string conversion on the
finite decimal values the app manipulates (JS numbers printed without exponent).
Rationals with no terminating decimal expansion cannot arise from a JS number and
get an arbitrary fraction rendering. -/
def ratToString (q : ℚ) : String :=
  let sign := if q < 0 then "-" else ""
  let n := q.num.natAbs
  let d := q.den
  match (List.range 41).find? (fun k => decide (d ∣ 10 ^ k)) with
  | some k =>
    if k = 0 then sign ++ toString (n / d)
    else
      let m := n * (10 ^ k / d)
      sign ++ toString (m / 10 ^ k) ++ "." ++ natPadLeft k (m % 10 ^ k)
  | none => sign ++ toString n ++ "/" ++ toString d

/-- JS String(v) conversion. -/
def jsToString : JsVal → String
  | .str s => s
  | .num q => ratToString q
  | .nan => "NaN"
  | .bool b => cond b "true" "false"
  | .null => "null"

/-- The JS idiom v or-else the empty string: a falsy or undefined value becomes the
empty string (models the expression aValue || two quotes in the table comparator). -/
def jsOrEmpty : Option JsVal → JsVal
  | some v => if jsTruthy v then v else .str ""
  | none => .str ""

/-! ### Value coercion (stockAnalysis.ts lines 124-137) -/

/-- The character strip of the regex replace: keep only digits, dot and minus
(stockAnalysis.ts lines 29-30 and 136). -/
def stripNonNumeric (s : String) : String :=
  ⟨s.data.filter (fun c => c.isDigit || c == '.' || c == '-')⟩

/-- Discrete part of parseFloat on a stripped string (alphabet: digits, dot, minus):
sign flag, digits of the mantissa, and number of fraction digits; none when no valid
numeric literal starts the string.  parseFloat reads the longest valid prefix, so a
second dot or an interior minus simply stops the scan. -/
def parseFloatRaw (s : String) : Option (Bool × ℕ × ℕ) :=
  let cs := s.data
  let p := match cs with
    | '-' :: rest => (true, rest)
    | _ => (false, cs)
  let d1 := p.2.takeWhile Char.isDigit
  let rest := p.2.dropWhile Char.isDigit
  let d2 := match rest with
    | '.' :: r2 => r2.takeWhile Char.isDigit
    | _ => []
  if d1.isEmpty && d2.isEmpty then none
  else some (p.1, digitsVal (d1 ++ d2), d2.length)

/-- Rational value of a parsed sign/mantissa/fraction-length triple. -/
def ratOfTriple (t : Bool × ℕ × ℕ) : ℚ :=
  (if t.1 then -1 else 1) * (t.2.1 : ℚ) / (10 ^ t.2.2)

/-- parseFloat on a stripped string; none is the NaN result. -/
def parseFloatStripped (s : String) : Option ℚ :=
  (parseFloatRaw s).map ratOfTriple

/-- The inline coercion of findStocksWithinThreshold (stockAnalysis.ts lines 29-30):
parseFloat of String(x) with every character outside digits, dot, minus stripped. -/
def rawStringCoerce (v : JsVal) : Option ℚ :=
  parseFloatStripped (stripNonNumeric (jsToString v))

/-- extractNumericPrice (stockAnalysis.ts lines 134-137): a value of number type is
returned unchanged (including NaN); otherwise the value, or the string literal 0 when
the value is falsy, is stringified, stripped and parsed. -/
def extractNumericPrice : JsVal → Option ℚ
  | .num q => some q
  | .nan => none
  | v => parseFloatStripped (stripNonNumeric (jsToString (if jsTruthy v then v else .str "0")))

/-- Reinjection of a coercion result as a JS value (a number, or NaN). -/
def numToVal : Option ℚ → JsVal
  | some q => .num q
  | none => .nan

/-- Modelled from the spec: the reference coercion algorithm of section 4.1 for
non-numeric values, as the spec words it with no null/falsy exception: stringify the
value, strip every character that is not a digit, dot or minus, then parse the
remainder as a floating-point literal.  Used as the comparison point for claim C5. -/
def specCoerce (v : JsVal) : Option ℚ :=
  parseFloatStripped (stripNonNumeric (jsToString v))

/-- Whether a value has JS number type (finite number or NaN). -/
def isNumberType : JsVal → Bool
  | .num _ => true
  | .nan => true
  | _ => false

/-! ### Number() conversion, used by the categorization engine -/

/-- ASCII whitespace trim modelling String.prototype.trim on the data in scope. -/
def trimAscii (s : String) : String :=
  ⟨((s.data.dropWhile fun c => c == ' ' || c == '\t' || c == '\n' || c == '\r').reverse.dropWhile
      fun c => c == ' ' || c == '\t' || c == '\n' || c == '\r').reverse⟩

/-- Discrete part of the Number() string grammar on a trimmed, nonempty string:
optional sign, digits with at most one dot, optional exponent part, with the whole
string consumed.  Radix-prefixed literals and the Infinity literal are outside the
finite value model and are mapped to the NaN result. -/
def jsNumParse (cs : List Char) : Option (Bool × ℕ × ℕ × Bool × ℕ) :=
  let p := match cs with
    | '-' :: r => (true, r)
    | '+' :: r => (false, r)
    | _ => (false, cs)
  let d1 := p.2.takeWhile Char.isDigit
  let r1 := p.2.dropWhile Char.isDigit
  let d2r := match r1 with
    | '.' :: r2 => (r2.takeWhile Char.isDigit, r2.dropWhile Char.isDigit)
    | _ => (([] : List Char), r1)
  if d1.isEmpty && d2r.1.isEmpty then none
  else
    match d2r.2 with
    | [] => some (p.1, digitsVal (d1 ++ d2r.1), d2r.1.length, false, 0)
    | e :: r3 =>
      if e == 'e' || e == 'E' then
        let ps := match r3 with
          | '-' :: r4 => (true, r4)
          | '+' :: r4 => (false, r4)
          | _ => (false, r3)
        let ed := ps.2.takeWhile Char.isDigit
        if ed.isEmpty || !(ps.2.dropWhile Char.isDigit).isEmpty then none
        else some (p.1, digitsVal (d1 ++ d2r.1), d2r.1.length, ps.1, digitsVal ed)
      else none

/-- Rational value of a parsed Number() quintuple. -/
def numQuintVal (t : Bool × ℕ × ℕ × Bool × ℕ) : ℚ :=
  (if t.1 then -1 else 1) * (t.2.1 : ℚ) / (10 ^ t.2.2.1) *
    (if t.2.2.2.1 then 1 / (10 ^ t.2.2.2.2) else 10 ^ t.2.2.2.2)

/-- Number() on a string: whitespace-only strings convert to 0, otherwise the whole
trimmed string must be a numeric literal; none is the NaN result. -/
def jsStrToNumber (s : String) : Option ℚ :=
  let t := trimAscii s
  if t.data.isEmpty then some 0 else (jsNumParse t.data).map numQuintVal

/-- Number(v) conversion of a cell value; none is the NaN result. -/
def jsNumberConv : JsVal → Option ℚ
  | .num q => some q
  | .nan => none
  | .null => some 0
  | .bool b => some (cond b 1 0)
  | .str s => jsStrToNumber s

/-! ### Screening engine (stockAnalysis.ts lines 6-79) -/

/-- Per-row price key of findStocksWithinThreshold (lines 16-18): first key equal to
the supplied priceColumn or whose lowercase form contains price. -/
def wtPriceKey (priceColumn : String) (r : Row) : Option String :=
  (rowKeys r).find? (fun k =>
    k == priceColumn || strIncludes (asciiLower k) "price")

/-- Per-row high key of findStocksWithinThreshold (lines 20-24). -/
def wtHighKey (highColumn : String) (r : Row) : Option String :=
  (rowKeys r).find? (fun k =>
    k == highColumn || strIncludes (asciiLower k) "high" ||
      strIncludes (asciiLower k) "all time")

/-- The row predicate of findStocksWithinThreshold (lines 14-37). -/
def withinThresholdPred (priceColumn highColumn : String) (percentThreshold : ℚ)
    (row : Row) : Bool :=
  match wtPriceKey priceColumn row, wtHighKey highColumn row with
  | some priceKey, some highKey =>
    match rawStringCoerce (valueAt row priceKey), rawStringCoerce (valueAt row highKey) with
    | some currentPrice, some highPrice =>
      decide (0 < highPrice) &&
        decide ((highPrice - currentPrice) / highPrice ≤ percentThreshold / 100)
    | _, _ => false
  | _, _ => false

/-- findStocksWithinThreshold (stockAnalysis.ts lines 6-38).  The early return on
empty data coincides with filtering the empty list. -/
def findStocksWithinThreshold (data : List Row) (priceColumn highColumn : String)
    (percentThreshold : ℚ) : List Row :=
  data.filter (withinThresholdPred priceColumn highColumn percentThreshold)

/-- Per-row price key of findStocksAtAllTimeHigh (lines 53-57); the optional
priceColumn argument is modelled by the empty string, which is falsy in JS. -/
def athPriceKey (priceColumn : String) (r : Row) : Option String :=
  if priceColumn ≠ "" then some priceColumn
  else (rowKeys r).find? (fun k =>
    strIncludes (asciiLower k) "price" || asciiLower k == "price" ||
      strIncludes (asciiLower k) "current")

/-- Per-row high key of findStocksAtAllTimeHigh (lines 59-63). -/
def athHighKey (highColumn : String) (r : Row) : Option String :=
  if highColumn ≠ "" then some highColumn
  else (rowKeys r).find? (fun k =>
    strIncludes (asciiLower k) "high all time" ||
      strIncludes (asciiLower k) "all time high" ||
      strIncludes (asciiLower k) "ath")

/-- The row predicate of findStocksAtAllTimeHigh (lines 51-78). -/
def athPred (priceColumn highColumn : String) (tolerancePercent : ℚ) (row : Row) : Bool :=
  match athPriceKey priceColumn row, athHighKey highColumn row with
  | some priceKey, some highKey =>
    match extractNumericPrice (valueAt row priceKey),
        extractNumericPrice (valueAt row highKey) with
    | some currentPrice, some highPrice =>
      decide (0 < highPrice) &&
        (decide ((highPrice - currentPrice) / highPrice ≤ tolerancePercent / 100) ||
          decide (highPrice ≤ currentPrice))
    | _, _ => false
  | _, _ => false

/-- findStocksAtAllTimeHigh (stockAnalysis.ts lines 43-79); tolerancePercent
defaults to 0.1 at the call sites. -/
def findStocksAtAllTimeHigh (data : List Row) (priceColumn highColumn : String)
    (tolerancePercent : ℚ) : List Row :=
  data.filter (athPred priceColumn highColumn tolerancePercent)

/-! ### Ranking engine (stockAnalysis.ts lines 86-129) -/

/-- calculatePercentFromHigh (lines 127-129) lifted to NaN-aware arguments: a
non-positive or NaN high yields 0, a NaN price with positive high yields NaN. -/
def calculatePercentFromHigh (price high : Option ℚ) : Option ℚ :=
  match high with
  | some h => if 0 < h then price.map (fun p => (h - p) / h * 100) else some 0
  | none => some 0

/-- Per-row price key of the ranking comparator (lines 95-98). -/
def sortPriceKey (priceColumn : String) (a : Row) : Option String :=
  if priceColumn ≠ "" then some priceColumn
  else (rowKeys a).find? (fun k =>
    strIncludes (asciiLower k) "price" || asciiLower k == "price")

/-- Per-row high key of the ranking comparator (lines 100-104). -/
def sortHighKey (highColumn : String) (a : Row) : Option String :=
  if highColumn ≠ "" then some highColumn
  else (rowKeys a).find? (fun k =>
    strIncludes (asciiLower k) "high all time" ||
      strIncludes (asciiLower k) "all time high" ||
      strIncludes (asciiLower k) "ath")

/-- The ranking comparator (lines 93-121).  Both keys are resolved from the left
operand a and then applied to both rows; unresolved keys compare as 0, and a NaN
difference is treated as 0 by Array.prototype.sort. -/
def sortCmp (priceColumn highColumn : String) (a b : Row) : ℚ :=
  match sortPriceKey priceColumn a, sortHighKey highColumn a with
  | some priceKey, some highKey =>
    let aPricePercent := calculatePercentFromHigh
      (extractNumericPrice (valueAt a priceKey)) (extractNumericPrice (valueAt a highKey))
    let bPricePercent := calculatePercentFromHigh
      (extractNumericPrice (valueAt b priceKey)) (extractNumericPrice (valueAt b highKey))
    match aPricePercent, bPricePercent with
    | some x, some y => x - y
    | _, _ => 0
  | _, _ => 0

/-- sortStocksByProximityToATH (stockAnalysis.ts lines 86-122): a stable sort of a
copy of the input under the comparator. -/
def sortStocksByProximityToATH (data : List Row) (priceColumn highColumn : String) :
    List Row :=
  List.insertionSort (fun a b => sortCmp priceColumn highColumn a b ≤ 0) data

/-- The proximity value of a single row under fixed column names. -/
def proximityOpt (priceColumn highColumn : String) (r : Row) : Option ℚ :=
  calculatePercentFromHigh (extractNumericPrice (valueAt r priceColumn))
    (extractNumericPrice (valueAt r highColumn))

/-- The proximity value of a row under fixed column names, with NaN read as 0. -/
def proximityVal (priceColumn highColumn : String) (r : Row) : ℚ :=
  (proximityOpt priceColumn highColumn r).getD 0

/-- The per-row proximity of claim C6: each row resolved with its own keys,
unresolved keys and NaN contributing the neutral value 0. -/
def perRowProximity (r : Row) : ℚ :=
  match sortPriceKey "" r, sortHighKey "" r with
  | some priceKey, some highKey =>
    (calculatePercentFromHigh (extractNumericPrice (valueAt r priceKey))
      (extractNumericPrice (valueAt r highKey))).getD 0
  | _, _ => 0

/-! ### Categorization engine (stockAnalysis.ts lines 197-326) -/

/-- The market-cap categories (types/index.ts MarketCapCategory). -/
inductive MarketCapCategory where
  | LARGE_CAP
  | MID_CAP
  | SMALL_CAP
  | MICRO_CAP
  | UNKNOWN
deriving DecidableEq

/-- The string value of each category constant of the TS enum. -/
def marketCapString : MarketCapCategory → String
  | .LARGE_CAP => "Large Cap"
  | .MID_CAP => "Mid Cap"
  | .SMALL_CAP => "Small Cap"
  | .MICRO_CAP => "Micro Cap"
  | .UNKNOWN => "Unknown"

/-- getCategoryForStock (stockAnalysis.ts lines 300-326).  The guard is the JS test
not-marketCap or marketCap equals the empty string or isNaN(Number(marketCap)): an
absent key, any falsy value (empty string, 0, false, NaN, null) or a value whose
Number() conversion is NaN yields UNKNOWN. -/
def getCategoryForStock (stock : Row) : MarketCapCategory :=
  match valueAtOpt stock "Market capitalization" with
  | none => .UNKNOWN
  | some marketCap =>
    if !(jsTruthy marketCap) then .UNKNOWN
    else
      match jsNumberConv marketCap with
      | none => .UNKNOWN
      | some marketCapValue =>
        if 200000000000 ≤ marketCapValue then .LARGE_CAP
        else if 50000000000 ≤ marketCapValue then .MID_CAP
        else if 5000000000 ≤ marketCapValue then .SMALL_CAP
        else .MICRO_CAP

/-- determineCategory (stockAnalysis.ts lines 248-270), the batch categorizer body:
identical logic to getCategoryForStock over the same field. -/
def determineCategory (stock : Row) : MarketCapCategory :=
  match valueAtOpt stock "Market capitalization" with
  | none => .UNKNOWN
  | some marketCap =>
    if !(jsTruthy marketCap) then .UNKNOWN
    else
      match jsNumberConv marketCap with
      | none => .UNKNOWN
      | some marketCapValue =>
        if 200000000000 ≤ marketCapValue then .LARGE_CAP
        else if 50000000000 ≤ marketCapValue then .MID_CAP
        else if 5000000000 ≤ marketCapValue then .SMALL_CAP
        else .MICRO_CAP

/-! ### TradingView enrichment (stockAnalysis.ts lines 167-184) -/

/-- Per-row symbol key (lines 169-173): exactly symbol, or containing ticker or code. -/
def symbolKeyOf (r : Row) : Option String :=
  (rowKeys r).find? (fun k =>
    asciiLower k == "symbol" || strIncludes (asciiLower k) "ticker" ||
      strIncludes (asciiLower k) "code")

/-- Object spread update: replace the value of an existing key in place, or append
the key at the end, as the spread with a computed field does on JS objects. -/
def setField : Row → String → JsVal → Row
  | [], k, v => [(k, v)]
  | p :: t, k, v => if p.1 = k then (k, v) :: t else p :: setField t k v

/-- addTradingViewSymbols (stockAnalysis.ts lines 167-184): rows whose symbol key
resolves to a truthy value gain a TV SYMBOL field and a Category field; all other
rows pass through unchanged. -/
def addTradingViewSymbols (data : List Row) : List Row :=
  data.map (fun row =>
    match symbolKeyOf row with
    | some symbolKey =>
      if jsTruthy (valueAt row symbolKey) then
        setField
          (setField row "TV SYMBOL" (.str ("NSE:" ++ jsToString (valueAt row symbolKey))))
          "Category" (.str (marketCapString (getCategoryForStock row)))
      else row
    | none => row)

/-! ### Generic table engine (DataTable.tsx, Pagination.tsx) -/

/-- SortConfig (types/index.ts): sorted key and direction; ascending is true for
the ascending direction. -/
structure SortConfig where
  key : String
  ascending : Bool
deriving DecidableEq

/-- Whether an accessed value has JS number type. -/
def cellIsNumber : Option JsVal → Bool
  | some (.num _) => true
  | some .nan => true
  | _ => false

/-- The DataTable comparator (DataTable.tsx lines 28-50): number-typed pairs compare
numerically in the requested direction (a NaN difference ties); every other pair
compares by lowercased stringification, with falsy values read as the empty string. -/
def sortCmpTable (sortConfig : SortConfig) (a b : Row) : ℚ :=
  let aValue := valueAtOpt a sortConfig.key
  let bValue := valueAtOpt b sortConfig.key
  if cellIsNumber aValue && cellIsNumber bValue then
    match aValue, bValue with
    | some (.num x), some (.num y) => if sortConfig.ascending then x - y else y - x
    | _, _ => 0
  else
    let aString := asciiLower (jsToString (jsOrEmpty aValue))
    let bString := asciiLower (jsToString (jsOrEmpty bValue))
    if strLtBool aString bString then (if sortConfig.ascending then -1 else 1)
    else if strLtBool bString aString then (if sortConfig.ascending then 1 else -1)
    else 0

/-- The sortedData memo (DataTable.tsx lines 25-53): a stable sort of a copy of the
data when a sort config is active, the data unchanged otherwise. -/
def tableSortedData (data : List Row) (sortConfig : Option SortConfig) : List Row :=
  match sortConfig with
  | none => data
  | some c => List.insertionSort (fun a b => sortCmpTable c a b ≤ 0) data

/-- The filter predicate (DataTable.tsx lines 57-66): every filter key with a
non-empty lowercased pattern must find a present, non-null cell whose lowercased
stringification contains the pattern. -/
def tableRowPasses (filters : List (String × String)) (row : Row) : Bool :=
  filters.all (fun kv =>
    let filterValue := asciiLower kv.2
    if filterValue == "" then true
    else
      match valueAtOpt row kv.1 with
      | some cellValue =>
        !(cellValue == .null) && strIncludes (asciiLower (jsToString cellValue)) filterValue
      | none => false)

/-- The filteredData memo (DataTable.tsx lines 56-68): filter the sorted set. -/
def tableFilteredData (data : List Row) (sortConfig : Option SortConfig)
    (filters : List (String × String)) : List Row :=
  (tableSortedData data sortConfig).filter (tableRowPasses filters)

/-- The page window slice (DataTable.tsx lines 71-74). -/
def pageSlice (currentPage rowsPerPage : ℕ) (l : List Row) : List Row :=
  (l.drop ((currentPage - 1) * rowsPerPage)).take rowsPerPage

/-- The paginatedData memo: the visible page is the slice of the filtered sorted set. -/
def tablePaginatedData (data : List Row) (sortConfig : Option SortConfig)
    (filters : List (String × String)) (currentPage rowsPerPage : ℕ) : List Row :=
  pageSlice currentPage rowsPerPage (tableFilteredData data sortConfig filters)

/-- The DataTable interaction state: sort config, filters and 1-based current page. -/
structure TableState where
  sortConfig : Option SortConfig
  filters : List (String × String)
  currentPage : ℕ
deriving DecidableEq

/-- The initial state: no sort, no filters, page 1. -/
def initialTableState : TableState := ⟨none, [], 1⟩

/-- requestSort (DataTable.tsx lines 77-83): same key while ascending flips to
descending, anything else sets ascending; the page is not changed. -/
def requestSort (key : String) (st : TableState) : TableState :=
  let direction :=
    match st.sortConfig with
    | some c => !(c.key == key && c.ascending)
    | none => true
  { st with sortConfig := some ⟨key, direction⟩ }

/-- Upsert of a filter pattern, preserving JS object key insertion order. -/
def upsertFilter (filters : List (String × String)) (k v : String) :
    List (String × String) :=
  if (filters.find? (fun p => p.1 == k)).isSome then
    filters.map (fun p => if p.1 == k then (k, v) else p)
  else filters ++ [(k, v)]

/-- handleFilterChange (DataTable.tsx lines 86-92): upsert the pattern and reset the
current page to 1. -/
def handleFilterChange (k v : String) (st : TableState) : TableState :=
  { st with filters := upsertFilter st.filters k v, currentPage := 1 }

/-- The raw page setter: DataTable passes setCurrentPage itself as the onPageChange
callback of Pagination (DataTable.tsx line 190), so the stored page is the argument
unclamped. -/
def setCurrentPage (n : ℕ) (st : TableState) : TableState :=
  { st with currentPage := n }

/-- The filtered row count feeding Pagination (DataTable.tsx line 188). -/
def filteredCount (data : List Row) (st : TableState) : ℕ :=
  (tableFilteredData data st.sortConfig st.filters).length

/-- totalPages (Pagination.tsx line 16): ceiling of filtered count over page size. -/
def totalPages (data : List Row) (rowsPerPage : ℕ) (st : TableState) : ℕ :=
  (filteredCount data st + rowsPerPage - 1) / rowsPerPage

/-- The Previous button (Pagination.tsx lines 26-32): page becomes
max(currentPage - 1, 1); the button is enabled only when currentPage exceeds 1. -/
def prevPageClick (st : TableState) : TableState :=
  setCurrentPage (max (st.currentPage - 1) 1) st

/-- The Next button (Pagination.tsx lines 33-39): page becomes
min(currentPage + 1, totalPages); the button is enabled only while currentPage is
below totalPages. -/
def nextPageClick (data : List Row) (rowsPerPage : ℕ) (st : TableState) : TableState :=
  setCurrentPage (min (st.currentPage + 1) (totalPages data rowsPerPage st)) st

/-- States reachable from the initial table state through the interactions the
component exposes: sorting, filter edits, and the two guarded pagination buttons. -/
inductive TableReach (data : List Row) (rowsPerPage : ℕ) : TableState → Prop where
  | start : TableReach data rowsPerPage initialTableState
  | sortStep (key : String) {st : TableState} :
      TableReach data rowsPerPage st → TableReach data rowsPerPage (requestSort key st)
  | filterStep (k v : String) {st : TableState} :
      TableReach data rowsPerPage st →
        TableReach data rowsPerPage (handleFilterChange k v st)
  | prevStep {st : TableState} :
      TableReach data rowsPerPage st → 1 < st.currentPage →
        TableReach data rowsPerPage (prevPageClick st)
  | nextStep {st : TableState} :
      TableReach data rowsPerPage st → st.currentPage < totalPages data rowsPerPage st →
        TableReach data rowsPerPage (nextPageClick data rowsPerPage st)

/-! ### Helper lemmas -/

/-- parseFloat of the literal string 0 is the number 0. -/
theorem parseFloatStripped_zero : parseFloatStripped "0" = some 0 := by
  rw [parseFloatStripped, show parseFloatRaw "0" = some (false, 0, 0) from by decide]
  simp [ratOfTriple]

/-- Coercing a falsy non-number value routes through the string literal 0. -/
theorem extractNumericPrice_null : extractNumericPrice JsVal.null = some 0 := by
  show parseFloatStripped
      (stripNonNumeric (jsToString (if jsTruthy JsVal.null then JsVal.null else .str "0"))) =
    some 0
  rw [show stripNonNumeric
        (jsToString (if jsTruthy JsVal.null then JsVal.null else .str "0")) = "0" from by decide]
  exact parseFloatStripped_zero

/-! ### Claim C4 -/

/-- Claim C4: value coercion is idempotent (coercing a coerced value, with NaN fed
back as the NaN value, changes nothing), coercing a value that is already a number
returns that number unchanged, and coercing the null/undefined value yields 0. -/
theorem claim4_coercion_idempotent :
    (∀ v : JsVal,
      extractNumericPrice (numToVal (extractNumericPrice v)) = extractNumericPrice v) ∧
    (∀ q : ℚ, extractNumericPrice (.num q) = some q) ∧
    extractNumericPrice JsVal.null = some 0 := by
  refine ⟨?_, fun q => rfl, extractNumericPrice_null⟩
  intro v
  cases h : extractNumericPrice v with
  | none => rfl
  | some q => rfl

/-! ### Claim C5 -/

/-- Claim C5 counterexample: on the null/undefined value the implemented coercion
returns 0 while the reference algorithm of the claim (stringify, strip, parse)
produces the NaN sentinel, because String(null) strips to the empty string. -/
theorem claim5_counterexample :
    extractNumericPrice JsVal.null = some 0 ∧ specCoerce JsVal.null = none ∧
    (some (0 : ℚ) ≠ none) :=
  ⟨extractNumericPrice_null, by decide, by simp⟩

/-- Claim C5 as amended: the implemented coercion agrees with the reference
stringify-strip-parse algorithm on every non-numeric value that is JS-truthy; a
falsy non-numeric value (null/undefined, the empty string, false) is instead
replaced by the string literal 0 and coerces to 0; a string whose stripped form is
malformed surfaces as the NaN sentinel. -/
theorem claim5_coercion_vs_reference :
    (∀ v : JsVal, isNumberType v = false →
      (jsTruthy v = true → extractNumericPrice v = specCoerce v) ∧
      (jsTruthy v = false → extractNumericPrice v = some 0)) ∧
    extractNumericPrice (.str "--5") = none := by
  constructor
  · intro v hnum
    constructor
    · intro ht
      cases v with
      | num q => simp [isNumberType] at hnum
      | nan => simp [isNumberType] at hnum
      | str s => simp only [extractNumericPrice, specCoerce, ht, if_true]
      | bool b => simp only [extractNumericPrice, specCoerce, ht, if_true]
      | null => simp [jsTruthy] at ht
    · intro hf
      cases v with
      | num q => simp [isNumberType] at hnum
      | nan => simp [isNumberType] at hnum
      | str s =>
        have hs : s = "" := by simpa [jsTruthy] using hf
        subst hs
        show parseFloatStripped
            (stripNonNumeric (jsToString (if jsTruthy (.str "") then JsVal.str "" else .str "0"))) =
          some 0
        rw [show stripNonNumeric
              (jsToString (if jsTruthy (.str "") then JsVal.str "" else .str "0")) = "0" from by
            decide]
        exact parseFloatStripped_zero
      | bool b =>
        have hb : b = false := by simpa [jsTruthy] using hf
        subst hb
        show parseFloatStripped
            (stripNonNumeric
              (jsToString (if jsTruthy (.bool false) then JsVal.bool false else .str "0"))) =
          some 0
        rw [show stripNonNumeric
              (jsToString (if jsTruthy (.bool false) then JsVal.bool false else .str "0")) =
            "0" from by decide]
        exact parseFloatStripped_zero
      | null => exact extractNumericPrice_null
  · decide

/-- Claim C5 witness: a concrete truthy non-numeric value on which the implemented
coercion and the reference algorithm agree. -/
theorem claim5_witness :
    isNumberType (JsVal.str "$95") = false ∧
    extractNumericPrice (JsVal.str "$95") = specCoerce (JsVal.str "$95") :=
  ⟨by decide, (claim5_coercion_vs_reference.1 (JsVal.str "$95") (by decide)).1 (by decide)⟩

/-! ### Claim C1 -/

/-- Claim C1: for every input and non-negative threshold, the within-threshold
screen returns a subsequence of its input; every returned row has a resolved price
key and high key whose values coerce to valid numbers, with the coerced high
strictly positive and (high - price)/high at most threshold/100; consequently any
row at or above its high, with keys resolved and values valid, is kept for every
non-negative threshold. -/
theorem claim1_within_threshold_screen
    (data : List Row) (priceColumn highColumn : String) (t : ℚ) (ht : 0 ≤ t) :
    (findStocksWithinThreshold data priceColumn highColumn t).Sublist data ∧
    (∀ row ∈ findStocksWithinThreshold data priceColumn highColumn t,
      ∃ pk hk c h, wtPriceKey priceColumn row = some pk ∧
        wtHighKey highColumn row = some hk ∧
        rawStringCoerce (valueAt row pk) = some c ∧
        rawStringCoerce (valueAt row hk) = some h ∧
        0 < h ∧ (h - c) / h ≤ t / 100) ∧
    (∀ row ∈ data, ∀ pk hk c h, wtPriceKey priceColumn row = some pk →
      wtHighKey highColumn row = some hk →
      rawStringCoerce (valueAt row pk) = some c →
      rawStringCoerce (valueAt row hk) = some h → 0 < h → h ≤ c →
      row ∈ findStocksWithinThreshold data priceColumn highColumn t) := by
  refine ⟨List.filter_sublist _, ?_, ?_⟩
  · intro row hr
    rw [findStocksWithinThreshold, List.mem_filter] at hr
    obtain ⟨-, hp⟩ := hr
    unfold withinThresholdPred at hp
    split at hp
    case _ pk hk hpk hhk =>
      split at hp
      case _ c h hc hh =>
        simp only [Bool.and_eq_true, decide_eq_true_eq] at hp
        exact ⟨pk, hk, c, h, hpk, hhk, hc, hh, hp.1, hp.2⟩
      case _ => simp at hp
    case _ => simp at hp
  · intro row hmem pk hk c h hpk hhk hc hh h0 hge
    rw [findStocksWithinThreshold, List.mem_filter]
    refine ⟨hmem, ?_⟩
    unfold withinThresholdPred
    simp only [hpk, hhk, hc, hh]
    simp only [Bool.and_eq_true, decide_eq_true_eq]
    refine ⟨h0, ?_⟩
    have h1 : (h - c) / h ≤ 0 := div_nonpos_iff.mpr (Or.inr ⟨sub_nonpos.mpr hge, h0.le⟩)
    have h2 : (0 : ℚ) ≤ t / 100 := by positivity
    linarith

/-- Claim C1 witness: a row trading above its recorded high is kept even at
threshold 0. -/
theorem claim1_witness :
    [("Price", JsVal.num 110), ("High All Time", JsVal.num 100)] ∈
      findStocksWithinThreshold
        [[("Price", JsVal.num 110), ("High All Time", JsVal.num 100)]]
        "Price" "High All Time" 0 := by
  have h := (claim1_within_threshold_screen
    [[("Price", JsVal.num 110), ("High All Time", JsVal.num 100)]]
    "Price" "High All Time" 0 le_rfl).2.2
  refine h _ (List.mem_singleton.mpr rfl) "Price" "High All Time" 110 100
    (by decide) (by decide) ?_ ?_ (by norm_num) (by norm_num)
  · rw [rawStringCoerce,
      show stripNonNumeric (jsToString
        (valueAt [("Price", JsVal.num 110), ("High All Time", JsVal.num 100)] "Price")) =
        "110" from by decide,
      parseFloatStripped, show parseFloatRaw "110" = some (false, 110, 0) from by decide]
    simp [ratOfTriple]
  · rw [rawStringCoerce,
      show stripNonNumeric (jsToString
        (valueAt [("Price", JsVal.num 110), ("High All Time", JsVal.num 100)]
          "High All Time")) = "100" from by decide,
      parseFloatStripped, show parseFloatRaw "100" = some (false, 100, 0) from by decide]
    simp [ratOfTriple]

/-! ### Claim C10 -/

/-- The first disjunct of the at-high price predicate absorbs the exact-equality
disjunct, so the predicate is a price-or-current substring test. -/
theorem athPricePredicate_absorb (k : String) :
    (strIncludes (asciiLower k) "price" || asciiLower k == "price" ||
      strIncludes (asciiLower k) "current") =
    (strIncludes (asciiLower k) "price" || strIncludes (asciiLower k) "current") := by
  cases he : asciiLower k == "price" with
  | false => simp [he]
  | true =>
    have h1 : asciiLower k = "price" := eq_of_beq he
    rw [h1]
    simp [show strIncludes "price" "price" = true from by decide]

/-- Claim C10: with no priceColumn supplied, the at-high screen resolves the price
key of a row as its first key whose lowercase form contains price or current; in
particular a row whose only price-like key contains current is still evaluated and
kept when it qualifies, rather than dropped for an unresolved column. -/
theorem claim10_current_key_resolution :
    (∀ row : Row, athPriceKey "" row =
      (rowKeys row).find? (fun k =>
        strIncludes (asciiLower k) "price" || strIncludes (asciiLower k) "current")) ∧
    findStocksAtAllTimeHigh
      [[("Current Value", JsVal.num 100), ("ATH", JsVal.num 90)]] "" "" (1 / 10) =
      [[("Current Value", JsVal.num 100), ("ATH", JsVal.num 90)]] := by
  constructor
  · intro row
    rw [athPriceKey, if_neg (by simp)]
    have hfun : (fun k => strIncludes (asciiLower k) "price" || asciiLower k == "price" ||
        strIncludes (asciiLower k) "current") =
        (fun k => strIncludes (asciiLower k) "price" ||
          strIncludes (asciiLower k) "current") := by
      funext k
      exact athPricePredicate_absorb k
    rw [hfun]
  · have hpred : athPred "" "" (1 / 10)
        [("Current Value", JsVal.num 100), ("ATH", JsVal.num 90)] = true := by
      unfold athPred
      simp only [show athPriceKey "" [("Current Value", JsVal.num 100), ("ATH", JsVal.num 90)] =
          some "Current Value" from by decide,
        show athHighKey "" [("Current Value", JsVal.num 100), ("ATH", JsVal.num 90)] =
          some "ATH" from by decide,
        show valueAt [("Current Value", JsVal.num 100), ("ATH", JsVal.num 90)]
          "Current Value" = JsVal.num 100 from by decide,
        show valueAt [("Current Value", JsVal.num 100), ("ATH", JsVal.num 90)] "ATH" =
          JsVal.num 90 from by decide,
        extractNumericPrice]
      simp only [Bool.and_eq_true, Bool.or_eq_true, decide_eq_true_eq]
      norm_num
    rw [findStocksAtAllTimeHigh]
    simp only [List.filter_cons, hpred, if_true, List.filter_nil]

/-! ### Claim C2 -/

/-- Claim C2 counterexample: a Market capitalization field holding the number 0 is
numeric, yet the categorizer returns UNKNOWN (the JS guard treats 0 as falsy), not
the MICRO_CAP the claim requires for every numeric value below five billion. -/
theorem claim2_counterexample :
    getCategoryForStock [("Market capitalization", JsVal.num 0)] =
      MarketCapCategory.UNKNOWN ∧
    MarketCapCategory.UNKNOWN ≠ MarketCapCategory.MICRO_CAP := by
  exact ⟨by decide, by decide⟩

/-- Claim C2 as amended: categorization returns UNKNOWN exactly when the Market
capitalization field is absent, JS-falsy (empty string, false, NaN, null, or the
number 0), or fails Number() conversion; otherwise, with m the converted value, the
fixed thresholds apply from largest to smallest, so 4,999,999,999 is MICRO_CAP and
5,000,000,000 is SMALL_CAP, while the numeric value 0 is UNKNOWN rather than
MICRO_CAP; the batch categorizer agrees with the single-row one. -/
theorem claim2_categorization :
    (∀ row : Row,
      determineCategory row = getCategoryForStock row ∧
      (getCategoryForStock row = .UNKNOWN ↔
        valueAtOpt row "Market capitalization" = none ∨
        ∃ v, valueAtOpt row "Market capitalization" = some v ∧
          (jsTruthy v = false ∨ jsNumberConv v = none)) ∧
      (∀ v m, valueAtOpt row "Market capitalization" = some v → jsTruthy v = true →
        jsNumberConv v = some m →
        ((getCategoryForStock row = .LARGE_CAP ↔ 200000000000 ≤ m) ∧
         (getCategoryForStock row = .MID_CAP ↔ 50000000000 ≤ m ∧ m < 200000000000) ∧
         (getCategoryForStock row = .SMALL_CAP ↔ 5000000000 ≤ m ∧ m < 50000000000) ∧
         (getCategoryForStock row = .MICRO_CAP ↔ m < 5000000000)))) ∧
    getCategoryForStock [("Market capitalization", JsVal.num 4999999999)] =
      MarketCapCategory.MICRO_CAP ∧
    getCategoryForStock [("Market capitalization", JsVal.num 5000000000)] =
      MarketCapCategory.SMALL_CAP := by
  refine ⟨?_, by decide, by decide⟩
  intro row
  refine ⟨rfl, ?_, ?_⟩
  · unfold getCategoryForStock
    cases hv : valueAtOpt row "Market capitalization" with
    | none => simp
    | some v =>
      cases ht : jsTruthy v with
      | false => simp [ht]
      | true =>
        cases hc : jsNumberConv v with
        | none => simp [ht, hc]
        | some m =>
          simp only [ht, Bool.not_true, if_false, hc, Bool.false_eq_true, false_or]
          split_ifs <;>
            simp_all
  · intro v m hv ht hc
    unfold getCategoryForStock
    simp only [hv]
    rw [if_neg (by simp [ht])]
    simp only [hc]
    split_ifs with h1 h2 h3
    · exact ⟨iff_of_true rfl h1,
        iff_of_false (by simp) (fun hx => by linarith [hx.2]),
        iff_of_false (by simp) (fun hx => by linarith [hx.2]),
        iff_of_false (by simp) (fun hx => by linarith)⟩
    · exact ⟨iff_of_false (by simp) h1,
        iff_of_true rfl ⟨h2, not_le.mp h1⟩,
        iff_of_false (by simp) (fun hx => by linarith [hx.2]),
        iff_of_false (by simp) (fun hx => by linarith)⟩
    · exact ⟨iff_of_false (by simp) h1,
        iff_of_false (by simp) (fun hx => h2 hx.1),
        iff_of_true rfl ⟨h3, not_le.mp h2⟩,
        iff_of_false (by simp) (fun hx => by linarith)⟩
    · exact ⟨iff_of_false (by simp) h1,
        iff_of_false (by simp) (fun hx => h2 hx.1),
        iff_of_false (by simp) (fun hx => h3 hx.1),
        iff_of_true rfl (not_le.mp h3)⟩

/-- Claim C2 witness: the lower boundary value five billion lands in SMALL_CAP via
the amended characterization. -/
theorem claim2_witness :
    (getCategoryForStock [("Market capitalization", JsVal.num 5000000000)] =
      MarketCapCategory.SMALL_CAP ↔
      (5000000000 : ℚ) ≤ 5000000000 ∧ (5000000000 : ℚ) < 50000000000) :=
  ((claim2_categorization.1 [("Market capitalization", JsVal.num 5000000000)]).2.2
    (JsVal.num 5000000000) 5000000000 (by decide) (by decide) rfl).2.2.1

/-! ### Claim C3 -/

/-- Claim C3 counterexample: a row whose price (5) is at or above its recorded high
(-10) satisfies the claim's membership condition — keys resolved, both coercions
valid numbers, price at least high — yet the screen drops it, because the code also
requires the coerced high to be strictly positive, a conjunct the claim omits. -/
theorem claim3_counterexample :
    athPriceKey "" [("Price", JsVal.num 5), ("High All Time", JsVal.num (-10))] =
      some "Price" ∧
    athHighKey "" [("Price", JsVal.num 5), ("High All Time", JsVal.num (-10))] =
      some "High All Time" ∧
    extractNumericPrice
      (valueAt [("Price", JsVal.num 5), ("High All Time", JsVal.num (-10))] "Price") =
      some 5 ∧
    extractNumericPrice
      (valueAt [("Price", JsVal.num 5), ("High All Time", JsVal.num (-10))]
        "High All Time") = some (-10) ∧
    ((-10 : ℚ) ≤ 5) ∧
    findStocksAtAllTimeHigh
      [[("Price", JsVal.num 5), ("High All Time", JsVal.num (-10))]] "" "" (1 / 10) =
      [] := by
  refine ⟨by decide, by decide, by decide, by decide, by norm_num, ?_⟩
  have hpred : athPred "" "" (1 / 10)
      [("Price", JsVal.num 5), ("High All Time", JsVal.num (-10))] = false := by
    unfold athPred
    simp only [show athPriceKey ""
        [("Price", JsVal.num 5), ("High All Time", JsVal.num (-10))] =
        some "Price" from by decide,
      show athHighKey "" [("Price", JsVal.num 5), ("High All Time", JsVal.num (-10))] =
        some "High All Time" from by decide,
      show valueAt [("Price", JsVal.num 5), ("High All Time", JsVal.num (-10))]
        "Price" = JsVal.num 5 from by decide,
      show valueAt [("Price", JsVal.num 5), ("High All Time", JsVal.num (-10))]
        "High All Time" = JsVal.num (-10) from by decide,
      extractNumericPrice]
    simp only [Bool.and_eq_false_iff, decide_eq_false_iff_not, not_lt]
    left
    norm_num
  rw [findStocksAtAllTimeHigh]
  simp only [List.filter_cons, hpred, List.filter_nil, Bool.false_eq_true, if_false]

/-- Claim C3 as amended: the at-high screen keeps a row if and only if the row is in
the input, its per-row-resolved price and high keys exist, both values coerce to
valid numbers, the coerced high is strictly positive (the conjunct the original
claim omitted), and the row is within tolerance or at/above its high; the price at
or above high clause alone keeps an over-high row even at tolerance zero. -/
theorem claim3_at_high_screen :
    (∀ (data : List Row) (pc hc : String) (tol : ℚ) (row : Row),
      row ∈ findStocksAtAllTimeHigh data pc hc tol ↔
        row ∈ data ∧ ∃ pk hk c h,
          athPriceKey pc row = some pk ∧ athHighKey hc row = some hk ∧
          extractNumericPrice (valueAt row pk) = some c ∧
          extractNumericPrice (valueAt row hk) = some h ∧
          0 < h ∧ ((h - c) / h ≤ tol / 100 ∨ h ≤ c)) ∧
    findStocksAtAllTimeHigh
      [[("Price", JsVal.num 110), ("High All Time", JsVal.num 100)]] "" "" 0 =
      [[("Price", JsVal.num 110), ("High All Time", JsVal.num 100)]] := by
  constructor
  · intro data pc hc tol row
    rw [findStocksAtAllTimeHigh, List.mem_filter]
    refine and_congr_right fun _ => ?_
    constructor
    · intro hp
      unfold athPred at hp
      split at hp
      case _ pk hk hpk hhk =>
        split at hp
        case _ c h hcv hhv =>
          simp only [Bool.and_eq_true, Bool.or_eq_true, decide_eq_true_eq] at hp
          exact ⟨pk, hk, c, h, hpk, hhk, hcv, hhv, hp.1, hp.2⟩
        case _ => simp at hp
      case _ => simp at hp
    · rintro ⟨pk, hk, c, h, hpk, hhk, hcv, hhv, h0, hor⟩
      unfold athPred
      simp only [hpk, hhk, hcv, hhv, Bool.and_eq_true, Bool.or_eq_true,
        decide_eq_true_eq]
      exact ⟨h0, hor⟩
  · have hpred : athPred "" "" 0
        [("Price", JsVal.num 110), ("High All Time", JsVal.num 100)] = true := by
      unfold athPred
      simp only [show athPriceKey ""
          [("Price", JsVal.num 110), ("High All Time", JsVal.num 100)] =
          some "Price" from by decide,
        show athHighKey "" [("Price", JsVal.num 110), ("High All Time", JsVal.num 100)] =
          some "High All Time" from by decide,
        show valueAt [("Price", JsVal.num 110), ("High All Time", JsVal.num 100)]
          "Price" = JsVal.num 110 from by decide,
        show valueAt [("Price", JsVal.num 110), ("High All Time", JsVal.num 100)]
          "High All Time" = JsVal.num 100 from by decide,
        extractNumericPrice]
      simp only [Bool.and_eq_true, Bool.or_eq_true, decide_eq_true_eq]
      norm_num
    rw [findStocksAtAllTimeHigh]
    simp only [List.filter_cons, hpred, if_true, List.filter_nil]

/-! ### Claim C9 -/

/-- Unfolding property access on a cons cell. -/
theorem valueAtOpt_cons (p : String × JsVal) (t : Row) (k : String) :
    valueAtOpt (p :: t) k = if p.1 == k then some p.2 else valueAtOpt t k := by
  by_cases h : p.1 == k
  · simp [valueAtOpt, List.find?_cons_of_pos, h]
  · simp only [Bool.not_eq_true] at h
    simp [valueAtOpt, List.find?_cons_of_neg, h]

/-- A spread update makes the written key read back the written value. -/
theorem valueAtOpt_setField_self (r : Row) (k : String) (v : JsVal) :
    valueAtOpt (setField r k v) k = some v := by
  induction r with
  | nil => simp [setField, valueAtOpt_cons]
  | cons p t ih =>
    rw [setField]
    by_cases h : p.1 = k
    · rw [if_pos h, valueAtOpt_cons]
      simp
    · rw [if_neg h, valueAtOpt_cons, if_neg (by simpa using h), ih]

/-- A spread update leaves every other key unchanged. -/
theorem valueAtOpt_setField_ne (r : Row) (k k2 : String) (v : JsVal) (h : k2 ≠ k) :
    valueAtOpt (setField r k v) k2 = valueAtOpt r k2 := by
  induction r with
  | nil =>
    simp [setField, valueAtOpt_cons, valueAtOpt]
    intro hk
    exact absurd hk.symm h
  | cons p t ih =>
    rw [setField]
    by_cases hp : p.1 = k
    · subst hp
      have hne : (p.1 == k2) = false := by
        simp only [beq_eq_false_iff_ne]
        exact fun hk => h hk.symm
      rw [if_pos rfl, valueAtOpt_cons, valueAtOpt_cons]
      simp [hne]
    · rw [if_neg hp, valueAtOpt_cons, valueAtOpt_cons, ih]

/-- Claim C9 counterexample: a row whose symbol column resolves but holds a falsy
value (the empty string) is returned unchanged with no TV SYMBOL field, although the
claim requires every row with a resolved symbol column to gain one; moreover a
truthy row gains a Category field in addition to TV SYMBOL, so its output row is not
the input row extended with the TV SYMBOL field alone. -/
theorem claim9_counterexample :
    symbolKeyOf [("Symbol", JsVal.str "")] = some "Symbol" ∧
    addTradingViewSymbols [[("Symbol", JsVal.str "")]] = [[("Symbol", JsVal.str "")]] ∧
    valueAtOpt [("Symbol", JsVal.str "")] "TV SYMBOL" = none ∧
    valueAtOpt
      ((addTradingViewSymbols [[("Symbol", JsVal.str "ABC")]]).headI) "Category" =
      some (JsVal.str "Unknown") := by
  refine ⟨by decide, by decide, by decide, by decide⟩

/-- Claim C9 as amended: the enrichment preserves row count and order; a row whose
symbol key resolves to a truthy value reads back TV SYMBOL as the string NSE:
followed by the stringified symbol value, reads back Category as the categorizer
string, and keeps every other key unchanged; a row with no resolved symbol key, or a
falsy symbol value, passes through identically. -/
theorem claim9_enrichment :
    ∀ data : List Row,
      List.Forall₂ (fun row row' =>
        match symbolKeyOf row with
        | some k =>
          if jsTruthy (valueAt row k) then
            valueAtOpt row' "TV SYMBOL" =
              some (.str ("NSE:" ++ jsToString (valueAt row k))) ∧
            valueAtOpt row' "Category" =
              some (.str (marketCapString (getCategoryForStock row))) ∧
            (∀ k2, k2 ≠ "TV SYMBOL" → k2 ≠ "Category" →
              valueAtOpt row' k2 = valueAtOpt row k2)
          else row' = row
        | none => row' = row)
        data (addTradingViewSymbols data) := by
  intro data
  rw [addTradingViewSymbols, List.forall₂_map_right_iff]
  rw [List.forall₂_same]
  intro row hrow
  cases hsym : symbolKeyOf row with
  | none => simp
  | some k =>
    by_cases htr : jsTruthy (valueAt row k)
    · simp only [htr, if_true]
      refine ⟨?_, ?_, ?_⟩
      · rw [valueAtOpt_setField_ne _ _ _ _ (by decide), valueAtOpt_setField_self]
      · rw [valueAtOpt_setField_self]
      · intro k2 h1 h2
        rw [valueAtOpt_setField_ne _ _ _ _ h2, valueAtOpt_setField_ne _ _ _ _ h1]
    · simp [htr]

/-! ### Claim C6 -/

/-- Ordered insertion depends on the relation only at the inserted element against
the list members. -/
theorem orderedInsert_rel_congr {α : Type} {r r' : α → α → Prop} [DecidableRel r]
    [DecidableRel r'] (a : α) (L : List α) (h : ∀ b ∈ L, (r a b ↔ r' a b)) :
    L.orderedInsert r a = L.orderedInsert r' a := by
  induction L with
  | nil => rfl
  | cons b t ih =>
    rw [List.orderedInsert, List.orderedInsert]
    by_cases hb : r a b
    · rw [if_pos hb, if_pos ((h b (List.mem_cons_self b t)).mp hb)]
    · rw [if_neg hb, if_neg (fun hb' => hb ((h b (List.mem_cons_self b t)).mpr hb')),
        ih (fun c hc => h c (List.mem_cons_of_mem b hc))]

/-- Insertion sort depends on the relation only at pairs of list members. -/
theorem insertionSort_rel_congr {α : Type} {r r' : α → α → Prop} [DecidableRel r]
    [DecidableRel r'] (l : List α) (h : ∀ a ∈ l, ∀ b ∈ l, (r a b ↔ r' a b)) :
    l.insertionSort r = l.insertionSort r' := by
  induction l with
  | nil => rfl
  | cons a t ih =>
    rw [List.insertionSort, List.insertionSort,
      ih (fun x hx y hy => h x (List.mem_cons_of_mem a hx) y (List.mem_cons_of_mem a hy))]
    apply orderedInsert_rel_congr
    intro b hb
    have hbt : b ∈ t := (List.mem_insertionSort r').mp hb
    exact h a (List.mem_cons_self a t) b (List.mem_cons_of_mem a hbt)

/-- With both column names supplied, the ranking comparator is the difference of the
two rows' proximity values (NaN pairs comparing as 0). -/
theorem sortCmp_of_cols (pc hc : String) (hpc : pc ≠ "") (hhc : hc ≠ "") (a b : Row) :
    sortCmp pc hc a b =
      match proximityOpt pc hc a, proximityOpt pc hc b with
      | some x, some y => x - y
      | _, _ => 0 := by
  unfold sortCmp
  rw [sortPriceKey, if_pos hpc, sortHighKey, if_pos hhc]
  rfl

/-- Claim C6 counterexample: on a heterogeneous two-row dataset with auto-detected
columns the ranking output is not ascending in the rows' own per-row proximity: the
comparator resolves both keys from its left operand and evaluates the right row with
those keys, so the first row (own proximity 20) is ranked before the second (own
proximity 90... evaluated here as 10 under its own keys) although 10 < 20. -/
theorem claim6_counterexample :
    sortStocksByProximityToATH
      [[("Price", JsVal.num 80), ("ATH B", JsVal.num 100)],
       [("Price", JsVal.num 45), ("ath main", JsVal.num 50), ("ATH B", JsVal.num 90)]]
      "" "" =
      [[("Price", JsVal.num 80), ("ATH B", JsVal.num 100)],
       [("Price", JsVal.num 45), ("ath main", JsVal.num 50), ("ATH B", JsVal.num 90)]] ∧
    perRowProximity
        [("Price", JsVal.num 45), ("ath main", JsVal.num 50), ("ATH B", JsVal.num 90)] <
      perRowProximity [("Price", JsVal.num 80), ("ATH B", JsVal.num 100)] := by
  have hrel : sortCmp "" ""
      [("Price", JsVal.num 80), ("ATH B", JsVal.num 100)]
      [("Price", JsVal.num 45), ("ath main", JsVal.num 50), ("ATH B", JsVal.num 90)] ≤ 0 := by
    unfold sortCmp
    simp only [show sortPriceKey "" [("Price", JsVal.num 80), ("ATH B", JsVal.num 100)] =
        some "Price" from by decide,
      show sortHighKey "" [("Price", JsVal.num 80), ("ATH B", JsVal.num 100)] =
        some "ATH B" from by decide,
      show valueAt [("Price", JsVal.num 80), ("ATH B", JsVal.num 100)] "Price" =
        JsVal.num 80 from by decide,
      show valueAt [("Price", JsVal.num 80), ("ATH B", JsVal.num 100)] "ATH B" =
        JsVal.num 100 from by decide,
      show valueAt
          [("Price", JsVal.num 45), ("ath main", JsVal.num 50), ("ATH B", JsVal.num 90)]
          "Price" = JsVal.num 45 from by decide,
      show valueAt
          [("Price", JsVal.num 45), ("ath main", JsVal.num 50), ("ATH B", JsVal.num 90)]
          "ATH B" = JsVal.num 90 from by decide,
      extractNumericPrice, calculatePercentFromHigh]
    rw [if_pos (show (0:ℚ) < 100 by norm_num), if_pos (show (0:ℚ) < 90 by norm_num)]
    simp only [Option.map_some']
    norm_num
  constructor
  · rw [sortStocksByProximityToATH]
    simp only [List.insertionSort, List.orderedInsert]
    rw [if_pos hrel]
  · have hy : perRowProximity
        [("Price", JsVal.num 45), ("ath main", JsVal.num 50), ("ATH B", JsVal.num 90)] =
        10 := by
      unfold perRowProximity
      simp only [show sortPriceKey ""
          [("Price", JsVal.num 45), ("ath main", JsVal.num 50), ("ATH B", JsVal.num 90)] =
          some "Price" from by decide,
        show sortHighKey ""
          [("Price", JsVal.num 45), ("ath main", JsVal.num 50), ("ATH B", JsVal.num 90)] =
          some "ath main" from by decide,
        show valueAt
          [("Price", JsVal.num 45), ("ath main", JsVal.num 50), ("ATH B", JsVal.num 90)]
          "Price" = JsVal.num 45 from by decide,
        show valueAt
          [("Price", JsVal.num 45), ("ath main", JsVal.num 50), ("ATH B", JsVal.num 90)]
          "ath main" = JsVal.num 50 from by decide,
        extractNumericPrice, calculatePercentFromHigh]
      rw [if_pos (show (0:ℚ) < 50 by norm_num)]
      simp only [Option.map_some', Option.getD_some]
      norm_num
    have hx : perRowProximity [("Price", JsVal.num 80), ("ATH B", JsVal.num 100)] = 20 := by
      unfold perRowProximity
      simp only [show sortPriceKey "" [("Price", JsVal.num 80), ("ATH B", JsVal.num 100)] =
          some "Price" from by decide,
        show sortHighKey "" [("Price", JsVal.num 80), ("ATH B", JsVal.num 100)] =
          some "ATH B" from by decide,
        show valueAt [("Price", JsVal.num 80), ("ATH B", JsVal.num 100)] "Price" =
          JsVal.num 80 from by decide,
        show valueAt [("Price", JsVal.num 80), ("ATH B", JsVal.num 100)] "ATH B" =
          JsVal.num 100 from by decide,
        extractNumericPrice, calculatePercentFromHigh]
      rw [if_pos (show (0:ℚ) < 100 by norm_num)]
      simp only [Option.map_some', Option.getD_some]
      norm_num
    rw [hx, hy]
    norm_num

/-- Claim C6 as amended: ranking always returns a permutation of its input; and when
explicit price and high column names are supplied and every row's proximity value is
a valid number, the output is sorted ascending by proximity and stable (rows with
equal proximity keep their original relative order).  With auto-detected columns on
heterogeneous rows the comparator resolves keys from its left operand only, and the
output need not be ascending in each row's own proximity. -/
theorem claim6_ranking (data : List Row) (pc hc : String) :
    (sortStocksByProximityToATH data pc hc).Perm data ∧
    (pc ≠ "" → hc ≠ "" → (∀ r ∈ data, (proximityOpt pc hc r).isSome) →
      (sortStocksByProximityToATH data pc hc).Pairwise
        (fun a b => proximityVal pc hc a ≤ proximityVal pc hc b) ∧
      (∀ v : ℚ,
        (sortStocksByProximityToATH data pc hc).filter
          (fun r => decide (proximityVal pc hc r = v)) =
        data.filter (fun r => decide (proximityVal pc hc r = v)))) := by
  constructor
  · exact List.perm_insertionSort _ data
  · intro hpc hhc hall
    have hrel : ∀ a ∈ data, ∀ b ∈ data,
        ((fun a b => sortCmp pc hc a b ≤ 0) a b ↔
          (fun a b => proximityVal pc hc a ≤ proximityVal pc hc b) a b) := by
      intro a ha b hb
      obtain ⟨x, hx⟩ := Option.isSome_iff_exists.mp (hall a ha)
      obtain ⟨y, hy⟩ := Option.isSome_iff_exists.mp (hall b hb)
      show sortCmp pc hc a b ≤ 0 ↔ proximityVal pc hc a ≤ proximityVal pc hc b
      rw [sortCmp_of_cols pc hc hpc hhc, hx, hy]
      rw [proximityVal, proximityVal, hx, hy]
      simp only [Option.getD_some]
      exact sub_nonpos
    have hsorteq : sortStocksByProximityToATH data pc hc =
        data.insertionSort (fun a b => proximityVal pc hc a ≤ proximityVal pc hc b) := by
      rw [sortStocksByProximityToATH]
      exact insertionSort_rel_congr data hrel
    constructor
    · haveI : IsTotal Row (fun a b => proximityVal pc hc a ≤ proximityVal pc hc b) :=
        ⟨fun a b => le_total _ _⟩
      haveI : IsTrans Row (fun a b => proximityVal pc hc a ≤ proximityVal pc hc b) :=
        ⟨fun a b c hab hbc => le_trans hab hbc⟩
      rw [hsorteq]
      exact List.sorted_insertionSort _ data
    · intro v
      have hcp : (data.filter (fun r => decide (proximityVal pc hc r = v))).Pairwise
          (fun a b => proximityVal pc hc a ≤ proximityVal pc hc b) := by
        apply List.pairwise_of_forall_mem_list
        intro x hx y hy
        have hxb := (List.mem_filter.mp hx).2
        have hyb := (List.mem_filter.mp hy).2
        have hxv : proximityVal pc hc x = v := of_decide_eq_true hxb
        have hyv : proximityVal pc hc y = v := of_decide_eq_true hyb
        rw [hxv, hyv]
      have hsubl : List.Sublist (data.filter (fun r => decide (proximityVal pc hc r = v)))
          (data.insertionSort (fun a b => proximityVal pc hc a ≤ proximityVal pc hc b)) :=
        List.sublist_insertionSort hcp (List.filter_sublist data)
      have h1 : List.Sublist
          ((data.filter (fun r => decide (proximityVal pc hc r = v))).filter
            (fun r => decide (proximityVal pc hc r = v)))
          ((data.insertionSort
            (fun a b => proximityVal pc hc a ≤ proximityVal pc hc b)).filter
            (fun r => decide (proximityVal pc hc r = v))) :=
        hsubl.filter _
      have h2 : (data.filter (fun r => decide (proximityVal pc hc r = v))).filter
            (fun r => decide (proximityVal pc hc r = v)) =
          data.filter (fun r => decide (proximityVal pc hc r = v)) :=
        List.filter_eq_self.mpr (fun x hx => (List.mem_filter.mp hx).2)
      have h3 : ((data.insertionSort
            (fun a b => proximityVal pc hc a ≤ proximityVal pc hc b)).filter
            (fun r => decide (proximityVal pc hc r = v))).length =
          (data.filter (fun r => decide (proximityVal pc hc r = v))).length :=
        ((List.perm_insertionSort _ data).filter _).length_eq
      rw [hsorteq]
      exact ((h2 ▸ h1).eq_of_length h3.symm).symm

/-- Claim C6 witness: on a homogeneous dataset with supplied columns the ranking is
sorted ascending by proximity. -/
theorem claim6_witness :
    (sortStocksByProximityToATH
      [[("P", JsVal.num 90), ("H", JsVal.num 100)],
       [("P", JsVal.num 50), ("H", JsVal.num 100)]] "P" "H").Pairwise
      (fun a b => proximityVal "P" "H" a ≤ proximityVal "P" "H" b) :=
  ((claim6_ranking
    [[("P", JsVal.num 90), ("H", JsVal.num 100)],
     [("P", JsVal.num 50), ("H", JsVal.num 100)]] "P" "H").2
    (by decide) (by decide) (by decide)).1

/-! ### Claim C7 -/

/-- Claim C7: the visible page is derived in the fixed order sort, then filter, then
slice to the window from (currentPage - 1) times rowsPerPage; and this order is not
interchangeable: on a concrete mixed-type dataset, filtering before sorting produces
a different row order than the engine's sort-then-filter (the comparator is
intransitive across number/string cells, so the dropped middle row changes the
relative order of the surviving rows). -/
theorem claim7_table_pipeline :
    (∀ (data : List Row) (sortConfig : Option SortConfig)
        (filters : List (String × String)) (currentPage rowsPerPage : ℕ),
      tablePaginatedData data sortConfig filters currentPage rowsPerPage =
        pageSlice currentPage rowsPerPage
          ((tableSortedData data sortConfig).filter (tableRowPasses filters))) ∧
    tableFilteredData
        [[("k", JsVal.num 10), ("f", JsVal.str "a")],
         [("k", JsVal.str "5"), ("f", JsVal.str "b")],
         [("k", JsVal.num 9), ("f", JsVal.str "a")]]
        (some ⟨"k", true⟩) [("f", "a")] ≠
      tableSortedData
        (List.filter (tableRowPasses [("f", "a")])
          [[("k", JsVal.num 10), ("f", JsVal.str "a")],
           [("k", JsVal.str "5"), ("f", JsVal.str "b")],
           [("k", JsVal.num 9), ("f", JsVal.str "a")]])
        (some ⟨"k", true⟩) := by
  refine ⟨fun data sortConfig filters currentPage rowsPerPage => rfl, ?_⟩
  have hyz : sortCmpTable ⟨"k", true⟩
      [("k", JsVal.str "5"), ("f", JsVal.str "b")]
      [("k", JsVal.num 9), ("f", JsVal.str "a")] = -1 := by decide
  have hxy : sortCmpTable ⟨"k", true⟩
      [("k", JsVal.num 10), ("f", JsVal.str "a")]
      [("k", JsVal.str "5"), ("f", JsVal.str "b")] = -1 := by decide
  have hxz : ¬ (sortCmpTable ⟨"k", true⟩
      [("k", JsVal.num 10), ("f", JsVal.str "a")]
      [("k", JsVal.num 9), ("f", JsVal.str "a")] ≤ 0) := by
    unfold sortCmpTable
    simp only [show valueAtOpt [("k", JsVal.num 10), ("f", JsVal.str "a")] "k" =
        some (JsVal.num 10) from by decide,
      show valueAtOpt [("k", JsVal.num 9), ("f", JsVal.str "a")] "k" =
        some (JsVal.num 9) from by decide,
      cellIsNumber, Bool.and_self, if_true]
    norm_num
  have hsorted : tableSortedData
      [[("k", JsVal.num 10), ("f", JsVal.str "a")],
       [("k", JsVal.str "5"), ("f", JsVal.str "b")],
       [("k", JsVal.num 9), ("f", JsVal.str "a")]] (some ⟨"k", true⟩) =
      [[("k", JsVal.num 10), ("f", JsVal.str "a")],
       [("k", JsVal.str "5"), ("f", JsVal.str "b")],
       [("k", JsVal.num 9), ("f", JsVal.str "a")]] := by
    simp only [tableSortedData, List.insertionSort, List.orderedInsert]
    rw [if_pos (show sortCmpTable ⟨"k", true⟩
        [("k", JsVal.num 10), ("f", JsVal.str "a")]
        [("k", JsVal.str "5"), ("f", JsVal.str "b")] ≤ 0 by rw [hxy]; norm_num)]
  have hfil : List.filter (tableRowPasses [("f", "a")])
      [[("k", JsVal.num 10), ("f", JsVal.str "a")],
       [("k", JsVal.str "5"), ("f", JsVal.str "b")],
       [("k", JsVal.num 9), ("f", JsVal.str "a")]] =
      [[("k", JsVal.num 10), ("f", JsVal.str "a")],
       [("k", JsVal.num 9), ("f", JsVal.str "a")]] := by decide
  have hlhs : tableFilteredData
      [[("k", JsVal.num 10), ("f", JsVal.str "a")],
       [("k", JsVal.str "5"), ("f", JsVal.str "b")],
       [("k", JsVal.num 9), ("f", JsVal.str "a")]]
      (some ⟨"k", true⟩) [("f", "a")] =
      [[("k", JsVal.num 10), ("f", JsVal.str "a")],
       [("k", JsVal.num 9), ("f", JsVal.str "a")]] := by
    rw [tableFilteredData, hsorted, hfil]
  have hrhs : tableSortedData
      (List.filter (tableRowPasses [("f", "a")])
        [[("k", JsVal.num 10), ("f", JsVal.str "a")],
         [("k", JsVal.str "5"), ("f", JsVal.str "b")],
         [("k", JsVal.num 9), ("f", JsVal.str "a")]])
      (some ⟨"k", true⟩) =
      [[("k", JsVal.num 9), ("f", JsVal.str "a")],
       [("k", JsVal.num 10), ("f", JsVal.str "a")]] := by
    rw [hfil]
    simp only [tableSortedData, List.insertionSort, List.orderedInsert]
    rw [if_neg hxz]
  rw [hlhs, hrhs]
  decide

/-! ### Claim C8 -/

/-- The sorted set is a permutation of the input, whatever the sort config. -/
theorem tableSortedData_perm (data : List Row) (sortConfig : Option SortConfig) :
    (tableSortedData data sortConfig).Perm data := by
  cases sortConfig with
  | none => exact List.Perm.refl data
  | some c => exact List.perm_insertionSort _ data

/-- The filtered count ignores the sort configuration. -/
theorem filteredCount_eq (data : List Row) (st : TableState) :
    filteredCount data st = (data.filter (tableRowPasses st.filters)).length :=
  ((tableSortedData_perm data st.sortConfig).filter _).length_eq

/-- Total pages do not depend on the sort configuration or the current page. -/
theorem totalPages_requestSort (data : List Row) (rowsPerPage : ℕ) (key : String)
    (st : TableState) :
    totalPages data rowsPerPage (requestSort key st) = totalPages data rowsPerPage st := by
  rw [totalPages, totalPages, filteredCount_eq, filteredCount_eq]
  rfl

/-- Claim C8 counterexample: after filtering down to a single page, a raw page
change to 3 stores page 3 — the page-change callback the table wires into the
pagination control is the bare state setter and never clamps, while the claim
requires setPage(3) to land on page 1. -/
theorem claim8_counterexample :
    totalPages [[("Sector", JsVal.str "tech")]] 10
      (handleFilterChange "Sector" "tech" initialTableState) = 1 ∧
    (setCurrentPage 3
      (handleFilterChange "Sector" "tech" initialTableState)).currentPage = 3 ∧
    (3 : ℕ) ≠ 1 := by
  refine ⟨by decide, rfl, by decide⟩

/-- Claim C8 as amended: setFilter always resets the current page to 1; the code has
no clamping page setter — the only page transitions the component exposes are the
guarded Previous and Next buttons, moving one page clamped at the boundaries — and
under these transitions every state reachable from the initial state keeps
currentPage within the valid range from 1 to max 1 totalPages. -/
theorem claim8_page_state :
    (∀ (k v : String) (st : TableState), (handleFilterChange k v st).currentPage = 1) ∧
    (∀ (data : List Row) (rowsPerPage : ℕ) (st : TableState),
      TableReach data rowsPerPage st →
        1 ≤ st.currentPage ∧
          st.currentPage ≤ max 1 (totalPages data rowsPerPage st)) := by
  refine ⟨fun k v st => rfl, ?_⟩
  intro data rowsPerPage st h
  induction h with
  | start => exact ⟨le_refl 1, le_max_left 1 _⟩
  | @sortStep key s hreach ih =>
    have h1 : (requestSort key s).currentPage = s.currentPage := rfl
    have h2 : totalPages data rowsPerPage (requestSort key s) =
        totalPages data rowsPerPage s := totalPages_requestSort data rowsPerPage key s
    rw [h1, h2]
    exact ih
  | filterStep k v hreach ih => exact ⟨le_refl 1, le_max_left 1 _⟩
  | @prevStep s hreach hgt ih =>
    have hq : (prevPageClick s).currentPage = max (s.currentPage - 1) 1 := rfl
    have htp : totalPages data rowsPerPage (prevPageClick s) =
        totalPages data rowsPerPage s := rfl
    rw [hq, htp]
    have h1 := ih.1
    have h2 := ih.2
    omega
  | @nextStep s hreach hlt ih =>
    have hq : (nextPageClick data rowsPerPage s).currentPage =
        min (s.currentPage + 1) (totalPages data rowsPerPage s) := rfl
    have htp : totalPages data rowsPerPage (nextPageClick data rowsPerPage s) =
        totalPages data rowsPerPage s := rfl
    rw [hq, htp]
    have h1 := ih.1
    omega

/-- Claim C8 witness: the state reached by one filter edit from the initial state
satisfies the page-range invariant on a concrete dataset. -/
theorem claim8_witness :
    1 ≤ (handleFilterChange "Sector" "tech" initialTableState).currentPage ∧
    (handleFilterChange "Sector" "tech" initialTableState).currentPage ≤
      max 1 (totalPages [[("Sector", JsVal.str "tech")]] 10
        (handleFilterChange "Sector" "tech" initialTableState)) :=
  claim8_page_state.2 [[("Sector", JsVal.str "tech")]] 10 _
    (TableReach.filterStep "Sector" "tech" TableReach.start)
